import Mathlib

/-! HTTP-to-SOCKS5 proxy: header filter, dispatcher, tunnel and forwarder.

A shallow embedding of `src/main.go`.

* Go strings are Lean strings; `http.Header` (a `map[string][]string`) is a
  finite map with distinct keys (`AList`), read through `lookup` and `keys`
  and written through `insert` (Go's `m[k] = v`).
* The handlers are I/O code.  Every call they make on the SOCKS5 dialer, on
  the `http.ResponseWriter`, on the hijacked client connection and on the
  upstream connection is recorded, in program order, as an `Action`; the
  outcome of each external call (dial, hijack, request construction, request
  write, response read) is supplied by a `World`.  `defer`red calls are
  recorded where they run: when the handler returns or panics, last
  registered first.
* The case table of package `unicode` is not part of the repository: the
  lower-case mapping of the runes above ASCII is a parameter (`unicodeLower`).
-/

namespace HttpProxyToSocks

/-! ## Strings (`strings`, `net`) -/

/-- Go `unicode.ToLower(r)`: up to `unicode.MaxASCII` (127) the letters
`A`..`Z` are mapped to `a`..`z` and every other rune is kept; above it the
rune is looked up in the case table, `unicodeLower`. -/
def toLowerRune (unicodeLower : Char → Char) (r : Char) : Char :=
  if r.toNat ≤ 127 then r.toLower else unicodeLower r

/-- Go `strings.ToLower(s)`: every rune of `s` mapped by `unicode.ToLower`
(the ASCII fast path of the library computes the same string). -/
def ToLower (unicodeLower : Char → Char) (s : String) : String :=
  String.mk (s.data.map (toLowerRune unicodeLower))

/-- Go `strings.Contains(s, substr)`: `substr` occurs somewhere in `s`. -/
def Contains (s substr : String) : Bool :=
  s.data.tails.any (fun t => substr.data.isPrefixOf t)

/-- Go `net.JoinHostPort(host, port)`: a host with a colon is taken to be an
IPv6 literal and is bracketed. -/
def JoinHostPort (host port : String) : String :=
  if host.data.contains ':' then "[" ++ host ++ "]:" ++ port
  else host ++ ":" ++ port

/-! ## Header filter -/

/-- Go `http.Header`: field name to list of values, one entry per name.  The
value is an allocated map, as `r.Header`, `resp.Header`, `w.Header()` and the
header of a fresh request all are; the nil map is not represented. -/
abbrev Header := AList (fun _ : String => List String)

/-- The package variable `HOP_BY_HOP_HEADERS` (RFC 2616, 13.5.1). -/
def HOP_BY_HOP_HEADERS : List String :=
  ["Connection",
   "Keep-Alive",
   "Proxy-Authorization",
   "Proxy-Connection",
   "TE",
   "Trailers",
   "Transfer-Encoding",
   "Upgrade"]

/-- Function `skipHopByHopHeader`: lower-case the name and compare it with the
lower-cased entries of `HOP_BY_HOP_HEADERS`, returning `true` at the first
match and `false` when the list is exhausted. -/
def skipHopByHopHeader (unicodeLower : Char → Char) (header : String) : Bool :=
  let header := ToLower unicodeLower header
  HOP_BY_HOP_HEADERS.any (fun h => ToLower unicodeLower h == header)

/-- One iteration of the `range src` loop of `copyHeaders`, on the pair
`(src, dst)` of maps: `continue` on a hop-by-hop name, `dst[k] = v`
otherwise. -/
def copyHeadersStep (unicodeLower : Char → Char) (st : Header × Header)
    (e : (_ : String) × List String) : Header × Header :=
  if skipHopByHopHeader unicodeLower e.1 then st
  else (st.1, st.2.insert e.1 e.2)

/-- Function `copyHeaders(src, dst)`: run the loop body over the entries of
`src`, in the order in which the map enumerates them.  Both maps are mutable
Go objects, so the result is the pair (`src` after, `dst` after). -/
def copyHeaders (unicodeLower : Char → Char) (src dst : Header) : Header × Header :=
  src.entries.foldl (copyHeadersStep unicodeLower) (src, dst)

/-! ## Requests, responses and the outside world -/

/-- The fields of the inbound `*http.Request` the handlers read.  `URLHost` is
`r.URL.Host` ("host or host:port"), `URLString` is `r.URL.String()`. -/
structure Request where
  Method : String
  Host : String
  URLHost : String
  URLString : String
  Header : Header
  Body : String
deriving DecidableEq

/-- The outbound `*http.Request` built by `http.NewRequest`. -/
structure OutRequest where
  Method : String
  URL : String
  Header : Header
  Body : String
deriving DecidableEq

/-- The upstream `*http.Response` parsed by `http.ReadResponse`. -/
structure Response where
  StatusCode : Nat
  Header : Header
  Body : String
deriving DecidableEq

/-- What one request takes from outside the repository: the case table of
package `unicode` and the outcomes of the external calls.  An `Except.error`
carries the text of the Go `error`. -/
structure World where
  /-- The lower-case mapping `unicode.To(unicode.LowerCase, r)` of the runes
  above ASCII. -/
  unicodeLower : Char → Char
  /-- The result of `p.Dialer.Dial(network, address)`. -/
  dial : String → String → Except String Unit
  /-- Whether the `http.ResponseWriter` implements `http.Hijacker`. -/
  hijacker : Bool
  /-- The result of `hijacker.Hijack()`. -/
  hijack : Except String Unit
  /-- Whether `http.NewRequest(method, url, body)` accepts its arguments. -/
  newRequest : String → String → Except String Unit
  /-- The result of `req.Write(conn)`. -/
  reqWrite : Except String Unit
  /-- The result of `http.ReadResponse(bufio.NewReader(conn), r)`. -/
  readResponse : Except String Response

/-- Go `http.NewRequest(method, url, body)`: on success the request carries
the method (`GET` for the empty method), the URL, the body and a fresh, empty
header map (`Header: make(Header)`). -/
def NewRequest (p : World) (method url body : String) : Except String OutRequest :=
  match p.newRequest method url with
  | .error err => .error err
  | .ok () =>
    .ok { Method := if method = "" then "GET" else method
          URL := url
          Header := ∅
          Body := body }

/-- The calls a handler makes, in program order. -/
inductive Action where
  /-- Call `p.Dialer.Dial(network, address)`. -/
  | Dial (network address : String)
  /-- Call `http.Error(w, msg, code)`. -/
  | Error (msg : String) (code : Nat)
  /-- Call `log.Printf`, with the formatted line. -/
  | Log (line : String)
  /-- Call `hijacker.Hijack()`. -/
  | Hijack
  /-- Call `clientConn.Write(bytes)` on the hijacked client connection. -/
  | ClientWrite (bytes : String)
  /-- Call `p.copyConn(clientConn, conn)`: the relay in both directions. -/
  | CopyConn
  /-- Call `req.Write(conn)` with the outbound request as it stands. -/
  | RequestWrite (req : OutRequest)
  /-- Call `http.ReadResponse` on the upstream connection. -/
  | ReadResponse
  /-- Call `w.WriteHeader(code)`; `header` is `w.Header()` at that moment. -/
  | WriteHeader (code : Nat) (header : Header)
  /-- Call `io.Copy(w, resp.Body)`. -/
  | CopyBody (body : String)
  /-- Deferred `resp.Body.Close()`. -/
  | CloseBody
  /-- Deferred `clientConn.Close()`. -/
  | CloseClient
  /-- Deferred `conn.Close()` on the upstream connection. -/
  | CloseUpstream
  /-- A run-time panic raised inside the preceding call; the handler unwinds
  and only its deferred calls still run. -/
  | Panic (msg : String)
deriving DecidableEq

/-- Function `checkWriteHeaderCode` of `net/http`, as a test: `WriteHeader`
panics on a code below 100 or above 999. -/
def checkWriteHeaderCode (code : Nat) : Bool :=
  decide (100 ≤ code ∧ code ≤ 999)

/-- Method `handleConnect`. -/
def handleConnect (p : World) (r : Request) : List Action :=
  match p.dial "tcp" r.Host with
  | .error err =>
    [.Dial "tcp" r.Host,
     .Error "Failed to connect to target via SOCKS5" 503,
     .Log ("CONNECT error: " ++ err)]
  | .ok () =>
    [.Dial "tcp" r.Host] ++
    (if !p.hijacker then
      [.Error "Hijacking not supported" 500]
    else
      match p.hijack with
      | .error _ =>
        [.Hijack, .Error "Failed to hijack connection" 500]
      | .ok () =>
        [.Hijack,
         .ClientWrite "HTTP/1.1 200 Connection Established\r\n\r\n",
         .CopyConn,
         .CloseClient]) ++
    [.CloseUpstream]

/-- The address `handleHTTP` dials: `r.URL.Host`, joined with port `80` when
it contains no colon. -/
def dialAddress (urlHost : String) : String :=
  if !Contains urlHost ":" then JoinHostPort urlHost "80" else urlHost

/-- Method `handleHTTP`; `w` is the content of `w.Header()` on entry. -/
def handleHTTP (p : World) (w : Header) (r : Request) : List Action :=
  let host := dialAddress r.URLHost
  match p.dial "tcp" host with
  | .error err =>
    [.Dial "tcp" host,
     .Error "Failed to connect to target via SOCKS5" 503,
     .Log ("HTTP error: " ++ err)]
  | .ok () =>
    [.Dial "tcp" host] ++
    (match NewRequest p r.Method r.URLString r.Body with
     | .error err =>
       [.Error "Failed to create request" 500,
        .Log ("Failed to create request: " ++ err)]
     | .ok req =>
       -- copyHeaders(req.Header, r.Header)
       let req :=
         { req with Header := (copyHeaders p.unicodeLower req.Header r.Header).1 }
       match p.reqWrite with
       | .error err =>
         [.RequestWrite req,
          .Error "Failed to forward request to " 500,
          .Log ("Failed to write request to : " ++ err)]
       | .ok () =>
         match p.readResponse with
         | .error err =>
           [.RequestWrite req,
            .ReadResponse,
            .Error "Failed to read response from " 500,
            .Log ("Failed to read response from : " ++ err)]
         | .ok resp =>
           -- copyHeaders(w.Header(), resp.Header)
           let w := (copyHeaders p.unicodeLower w resp.Header).1
           if checkWriteHeaderCode resp.StatusCode then
             [.RequestWrite req,
              .ReadResponse,
              .WriteHeader resp.StatusCode w,
              .CopyBody resp.Body,
              .CloseBody]
           else
             -- w.WriteHeader panics: io.Copy is not reached
             [.RequestWrite req,
              .ReadResponse,
              .WriteHeader resp.StatusCode w,
              .Panic ("invalid WriteHeader code " ++ toString resp.StatusCode),
              .CloseBody]) ++
    [.CloseUpstream]

/-- Method `handler`: dispatch on `r.Method == http.MethodConnect`. -/
def handler (p : World) (w : Header) (r : Request) : List Action :=
  if r.Method = "CONNECT" then handleConnect p r else handleHTTP p w r

/-! ## Tunnel relay -/

/-- The two `io.Copy` calls of `copyConn`. -/
inductive Direction where
  /-- The call `go io.Copy(targetConn, clientConn)`, in its own goroutine. -/
  | clientToUpstream
  /-- The call `io.Copy(clientConn, targetConn)`, in the handler's goroutine. -/
  | upstreamToClient
deriving DecidableEq

/-- State of an established CONNECT tunnel: which copies have returned and
which connections have been closed. -/
structure Tunnel where
  clientToUpstreamDone : Bool
  upstreamToClientDone : Bool
  clientClosed : Bool
  upstreamClosed : Bool
deriving DecidableEq

/-- The tunnel right after the handshake reply: `copyConn` has started both
copies and nothing is closed. -/
def Tunnel.established : Tunnel :=
  { clientToUpstreamDone := false
    upstreamToClientDone := false
    clientClosed := false
    upstreamClosed := false }

/-- What the program does when one of the two copies of `copyConn` returns
(end of stream or error).  The goroutine `go io.Copy(targetConn, clientConn)`
has no statement after the copy, so it just ends.  When
`io.Copy(clientConn, targetConn)` returns, `copyConn` returns, `handleConnect`
returns and its deferred `clientConn.Close()` and `conn.Close()` run. -/
def copyFinished (t : Tunnel) (d : Direction) : Tunnel :=
  match d with
  | .clientToUpstream => { t with clientToUpstreamDone := true }
  | .upstreamToClient =>
    { t with upstreamToClientDone := true
             clientClosed := true
             upstreamClosed := true }

/-- The tunnel after the copies return in the given order. -/
def runTunnel (ds : List Direction) : Tunnel :=
  ds.foldl copyFinished Tunnel.established

/-! ## SOCKS5 dialer construction -/

/-- The configuration fields of `Proxy`. -/
structure Proxy where
  SocksHostname : String
  SocksPort : String
  SocksUsername : String
  SocksPassword : String
  ListenIp : String
  HTTPPort : String
deriving DecidableEq

/-- Go `proxy.Auth`. -/
structure Auth where
  User : String
  Password : String
deriving DecidableEq

/-- The arguments of the call `proxy.SOCKS5(network, addr, auth, proxy.Direct)`;
`auth = none` is the nil pointer. -/
structure SOCKS5Call where
  network : String
  addr : String
  auth : Option Auth
deriving DecidableEq

/-- Method `CreateDialer`: the call to `proxy.SOCKS5` it makes. -/
def CreateDialer (p : Proxy) : SOCKS5Call :=
  let auth : Option Auth :=
    if p.SocksUsername ≠ "" ∧ p.SocksPassword ≠ "" then
      some { User := p.SocksUsername, Password := p.SocksPassword }
    else none
  { network := "tcp"
    addr := p.SocksHostname ++ ":" ++ p.SocksPort
    auth := auth }

/-! ## Vocabulary of the properties -/

/-- The host part of a URL authority: a registered name, an IPv4 address or an
IPv6 literal (written between brackets in a URL). -/
inductive HostForm where
  | name (s : String)
  | ipv4 (s : String)
  | ipv6 (s : String)
deriving DecidableEq

/-- The text of the host part inside a URL. -/
def HostForm.text : HostForm → String
  | .name s => s
  | .ipv4 s => s
  | .ipv6 s => "[" ++ s ++ "]"

/-- A URL authority: host and optional explicit port. -/
structure Authority where
  host : HostForm
  port : Option String
deriving DecidableEq

/-- The value of `URL.Host` for an authority: "host or host:port". -/
def Authority.urlHost (a : Authority) : String :=
  match a.port with
  | none => a.host.text
  | some port => a.host.text ++ ":" ++ port

/-- Two characters are the same letter up to ASCII case: they are equal, or
one is a capital `A`..`Z` (codes 65..90) and the other is the small letter 32
codes above it. -/
def sameLetter (c d : Char) : Bool :=
  decide (c = d ∨
    (65 ≤ c.toNat ∧ c.toNat ≤ 90 ∧ d.toNat = c.toNat + 32) ∨
    (65 ≤ d.toNat ∧ d.toNat ≤ 90 ∧ c.toNat = d.toNat + 32))

/-- Two character sequences are equal ignoring case: same length and,
position by position, the same letter. -/
def equalIgnoringCase : List Char → List Char → Bool
  | [], [] => true
  | c :: cs, d :: ds => sameLetter c d && equalIgnoringCase cs ds
  | _, _ => false

/-- A header name is hop-by-hop when it equals, ignoring case, one of
`Connection`, `Keep-Alive`, `Proxy-Authorization`, `Proxy-Connection`, `TE`,
`Trailers`, `Transfer-Encoding`, `Upgrade`. -/
def isHopByHop (name : String) : Bool :=
  ["Connection", "Keep-Alive", "Proxy-Authorization", "Proxy-Connection",
   "TE", "Trailers", "Transfer-Encoding", "Upgrade"].any
    (fun h => equalIgnoringCase name.data h.data)

/-- All characters of the string are ASCII (codes up to 127), as in every
HTTP field name. -/
def isASCII (s : String) : Bool :=
  s.data.all (fun c => decide (c.toNat ≤ 127))

/-- A header name is hop-by-hop for the comparison Go makes: lower-cased by
`strings.ToLower`, it is one of `connection`, `keep-alive`,
`proxy-authorization`, `proxy-connection`, `te`, `trailers`,
`transfer-encoding`, `upgrade`. -/
def hopByHopName (unicodeLower : Char → Char) (name : String) : Bool :=
  ["connection", "keep-alive", "proxy-authorization", "proxy-connection",
   "te", "trailers", "transfer-encoding", "upgrade"].contains
    (ToLower unicodeLower name)

/-- The map the destination is required to be after `copyHeaders(src, dst)`,
given by its entry at each key: the value list of `src` at a key of `src`
that is not hop-by-hop, the former entry of `dst` (present or absent) at any
other key. -/
def copyHeadersReference (unicodeLower : Char → Char) (src dst : Header)
    (k : String) : Option (List String) :=
  if k ∈ src.keys ∧ hopByHopName unicodeLower k = false then src.lookup k
  else dst.lookup k

/-- The address a request makes `handler` dial: `r.Host` for `CONNECT`, the
address computed from `r.URL.Host` otherwise. -/
def dialTarget (r : Request) : String :=
  if r.Method = "CONNECT" then r.Host else dialAddress r.URLHost

/-- A code `net/http` sends as an informational response, after which the
final status is still to come: 100 to 199, except 101. -/
def informationalCode (code : Nat) : Bool :=
  decide (100 ≤ code ∧ code ≤ 199 ∧ code ≠ 101)

/-- The status lines the `http.ResponseWriter` of `net/http` sends to the
client for a sequence of calls; `wroteHeader` tells whether the final status
has been sent.  `WriteHeader(code)` is ignored once the final status is out,
panics and sends nothing on a code outside 100..999, sends an informational
code and stays open for the final status, and sends any other code as the
final status.  `http.Error` is `WriteHeader` followed by a write of the
message.  A write of body bytes with no final status yet sends 200 first (for
an empty body the server sends it when the handler returns). -/
def statusesFrom (wroteHeader : Bool) : List Action → List Nat
  | [] => []
  | .WriteHeader code _ :: rest =>
    if wroteHeader || !checkWriteHeaderCode code then statusesFrom wroteHeader rest
    else code :: statusesFrom (!informationalCode code) rest
  | .Error _ code :: rest =>
    if wroteHeader then statusesFrom true rest
    else if !checkWriteHeaderCode code then statusesFrom false rest
    else if informationalCode code then code :: 200 :: statusesFrom true rest
    else code :: statusesFrom true rest
  | .CopyBody _ :: rest =>
    if wroteHeader then statusesFrom true rest
    else 200 :: statusesFrom true rest
  | _ :: rest => statusesFrom wroteHeader rest

/-- The status lines a handler sends to the client through the
`http.ResponseWriter`, in order. -/
def statuses (trace : List Action) : List Nat :=
  statusesFrom false trace

/-- The lower-case mapping of three runes above ASCII as the Unicode case
table gives it (U+212A to `k`, U+0130 to `i`, U+00C9 to U+00E9), every other
rune kept: a table for the sample worlds. -/
def sampleUnicodeLower (r : Char) : Char :=
  if r = Char.ofNat 0x212A then 'k'
  else if r = Char.ofNat 0x0130 then 'i'
  else if r = Char.ofNat 0x00C9 then Char.ofNat 0x00E9
  else r

/-- The byte strings a handler writes to the hijacked client connection, in
order. -/
def clientWrites : List Action → List String
  | [] => []
  | .ClientWrite bytes :: rest => bytes :: clientWrites rest
  | _ :: rest => clientWrites rest

/-- A plain GET request for `http://h/` with the three headers
`Host: h`, `Accept: */*`, `Connection: keep-alive`. -/
def sampleGet : Request :=
  { Method := "GET"
    Host := "h"
    URLHost := "h"
    URLString := "http://h/"
    Header := (((∅ : Header).insert "Connection" ["keep-alive"]).insert
      "Accept" ["*/*"]).insert "Host" ["h"]
    Body := "" }

/-- An upstream response `200` with a `Content-Type` and a `Connection`
header. -/
def sampleResponse : Response :=
  { StatusCode := 200
    Header := ((∅ : Header).insert "Connection" ["close"]).insert
      "Content-Type" ["text/plain"]
    Body := "ok" }

/-- A world in which every external call succeeds and the upstream answers
`sampleResponse`. -/
def happyWorld : World :=
  { unicodeLower := sampleUnicodeLower
    dial := fun _ _ => .ok ()
    hijacker := true
    hijack := .ok ()
    newRequest := fun _ _ => .ok ()
    reqWrite := .ok ()
    readResponse := .ok sampleResponse }

/-- A CONNECT request for `example.com:443`. -/
def sampleConnect : Request :=
  { Method := "CONNECT"
    Host := "example.com:443"
    URLHost := "example.com:443"
    URLString := "//example.com:443"
    Header := ∅
    Body := "" }

/-- A world in which the SOCKS5 dial is refused. -/
def deadWorld : World :=
  { happyWorld with dial := fun _ _ => .error "refused" }

/-- An upstream response with the status line `HTTP/1.1 099 Odd`, which
`http.ReadResponse` parses to status code 99. -/
def oddResponse : Response :=
  { StatusCode := 99
    Header := ∅
    Body := "odd" }

/-- A world in which every external call succeeds and the upstream answers
`oddResponse`. -/
def oddWorld : World :=
  { happyWorld with readResponse := .ok oddResponse }

/-- An upstream response with the status line `HTTP/1.1 100 Continue`. -/
def continueResponse : Response :=
  { StatusCode := 100
    Header := ∅
    Body := "" }

/-- A world in which every external call succeeds and the upstream answers
`continueResponse`. -/
def continueWorld : World :=
  { happyWorld with readResponse := .ok continueResponse }

/-- The name `Keep-Alive` written with the Kelvin sign (U+212A) for its first
letter. -/
def kelvinKeepAlive : String :=
  String.mk (Char.ofNat 0x212A :: "eep-Alive".data)

/-- A plain GET request for `http://[::1]/`: an IPv6 literal and no port. -/
def sampleGetIPv6 : Request :=
  { sampleGet with
    Host := "[::1]"
    URLHost := Authority.urlHost { host := .ipv6 "::1", port := none }
    URLString := "http://[::1]/" }

/-! ## Header filter -/

/-- The character with a code below the surrogate range has that code. -/
theorem toNat_ofNat_of_lt (n : Nat) (h : n < 0xd800) : (Char.ofNat n).toNat = n := by
  have hv : n.isValidChar := Or.inl h
  unfold Char.ofNat
  rw [dif_pos hv]
  rfl

/-- Characters with the same code are equal. -/
theorem char_eq_of_toNat_eq (c d : Char) (h : c.toNat = d.toNat) : c = d := by
  rw [← Char.ofNat_toNat c, ← Char.ofNat_toNat d, h]

/-- Lower-casing identifies exactly the characters that are the same letter. -/
theorem toLower_eq_iff_sameLetter (c d : Char) :
    c.toLower = d.toLower ↔ sameLetter c d = true := by
  unfold Char.toLower sameLetter
  simp only [ge_iff_le, decide_eq_true_eq]
  by_cases hc : 65 ≤ c.toNat ∧ c.toNat ≤ 90 <;> by_cases hd : 65 ≤ d.toNat ∧ d.toNat ≤ 90
  · rw [if_pos hc, if_pos hd]
    constructor
    · intro h
      have hn := congrArg Char.toNat h
      rw [toNat_ofNat_of_lt _ (by omega), toNat_ofNat_of_lt _ (by omega)] at hn
      exact Or.inl (char_eq_of_toNat_eq _ _ (by omega))
    · rintro (h | h | h)
      · rw [h]
      · omega
      · omega
  · rw [if_pos hc, if_neg hd]
    constructor
    · intro h
      have hn := congrArg Char.toNat h
      rw [toNat_ofNat_of_lt _ (by omega)] at hn
      exact Or.inr (Or.inl ⟨hc.1, hc.2, hn.symm⟩)
    · rintro (h | h | h)
      · rw [h] at hc; exact absurd hc hd
      · rw [← h.2.2, Char.ofNat_toNat]
      · exact absurd ⟨h.1, h.2.1⟩ hd
  · rw [if_neg hc, if_pos hd]
    constructor
    · intro h
      have hn := congrArg Char.toNat h
      rw [toNat_ofNat_of_lt _ (by omega)] at hn
      exact Or.inr (Or.inr ⟨hd.1, hd.2, hn⟩)
    · rintro (h | h | h)
      · rw [h] at hc; exact absurd hd hc
      · exact absurd ⟨h.1, h.2.1⟩ hc
      · rw [← h.2.2, Char.ofNat_toNat]
  · rw [if_neg hc, if_neg hd]
    constructor
    · intro h; exact Or.inl h
    · rintro (h | h | h)
      · exact h
      · exact absurd ⟨h.1, h.2.1⟩ hc
      · exact absurd ⟨h.1, h.2.1⟩ hd

/-- Two character sequences have the same ASCII lower-casing exactly when they
are equal ignoring case. -/
theorem map_toLower_eq_iff_equalIgnoringCase (l m : List Char) :
    l.map Char.toLower = m.map Char.toLower ↔ equalIgnoringCase l m = true := by
  induction l generalizing m with
  | nil => cases m <;> simp [equalIgnoringCase]
  | cons c cs ih =>
    cases m with
    | nil => simp [equalIgnoringCase]
    | cons d ds =>
      simp only [List.map_cons, List.cons.injEq, equalIgnoringCase, Bool.and_eq_true,
        ih ds, toLower_eq_iff_sameLetter]

/-- On an ASCII string `strings.ToLower` never consults the case table. -/
theorem ToLower_of_isASCII (unicodeLower : Char → Char) (s : String)
    (hs : isASCII s = true) :
    ToLower unicodeLower s = String.mk (s.data.map Char.toLower) := by
  unfold ToLower
  unfold isASCII at hs
  rw [List.all_eq_true] at hs
  congr 1
  apply List.map_congr_left
  intro c hc
  have hle : c.toNat ≤ 127 := by simpa using hs c hc
  simp [toLowerRune, hle]

/-- A sequence equal, ignoring case, to an ASCII sequence is ASCII. -/
theorem ascii_of_equalIgnoringCase (l m : List Char)
    (heq : equalIgnoringCase l m = true) (hm : ∀ d ∈ m, d.toNat ≤ 127) :
    ∀ c ∈ l, c.toNat ≤ 127 := by
  induction l generalizing m with
  | nil => intro c hc; cases hc
  | cons a as ih =>
    cases m with
    | nil => simp [equalIgnoringCase] at heq
    | cons d ds =>
      simp only [equalIgnoringCase, Bool.and_eq_true] at heq
      have hd : d.toNat ≤ 127 := hm d (List.mem_cons_self d ds)
      have ha : a.toNat ≤ 127 := by
        have hsame := heq.1
        unfold sameLetter at hsame
        rw [decide_eq_true_eq] at hsame
        rcases hsame with h | h | h
        · rw [h]; exact hd
        · omega
        · omega
      intro c hc
      rcases List.mem_cons.1 hc with h | h
      · rw [h]; exact ha
      · exact ih ds heq.2 (fun x hx => hm x (List.mem_cons_of_mem d hx)) c h

/-- The eight entries of `HOP_BY_HOP_HEADERS` are ASCII. -/
theorem hopByHopHeaders_isASCII : ∀ h ∈ HOP_BY_HOP_HEADERS, isASCII h = true := by
  decide

/-- Two ASCII strings have the same `strings.ToLower` exactly when they are
equal ignoring case. -/
theorem ToLower_eq_iff_equalIgnoringCase (unicodeLower : Char → Char) (a b : String)
    (ha : isASCII a = true) (hb : isASCII b = true) :
    ToLower unicodeLower a = ToLower unicodeLower b ↔
      equalIgnoringCase a.data b.data = true := by
  rw [ToLower_of_isASCII unicodeLower a ha, ToLower_of_isASCII unicodeLower b hb,
    ← map_toLower_eq_iff_equalIgnoringCase]
  exact ⟨fun h => by injection h, fun h => by rw [h]⟩

/-- A name that equals a hop-by-hop name ignoring case is skipped, whatever
the case table. -/
theorem skipHopByHopHeader_of_isHopByHop (unicodeLower : Char → Char) (name : String)
    (hname : isHopByHop name = true) : skipHopByHopHeader unicodeLower name = true := by
  unfold isHopByHop at hname
  rw [List.any_eq_true] at hname
  obtain ⟨h, hmem, heq⟩ := hname
  have hmem2 : h ∈ HOP_BY_HOP_HEADERS := hmem
  have hh : isASCII h = true := hopByHopHeaders_isASCII h hmem2
  have hn : isASCII name = true := by
    unfold isASCII
    rw [List.all_eq_true]
    intro c hc
    have hall : ∀ d ∈ h.data, d.toNat ≤ 127 := by
      intro d hd
      unfold isASCII at hh
      rw [List.all_eq_true] at hh
      simpa using hh d hd
    simpa using ascii_of_equalIgnoringCase name.data h.data heq hall c hc
  unfold skipHopByHopHeader
  rw [List.any_eq_true]
  exact ⟨h, hmem2, by
    rw [beq_iff_eq]
    exact ((ToLower_eq_iff_equalIgnoringCase unicodeLower name h hn hh).2 heq).symm⟩

/-- On ASCII names the test of `skipHopByHopHeader` is equality, ignoring
case, with one of the eight hop-by-hop names. -/
theorem skipHopByHopHeader_eq_isHopByHop (unicodeLower : Char → Char) (name : String)
    (hn : isASCII name = true) :
    skipHopByHopHeader unicodeLower name = isHopByHop name := by
  rw [Bool.eq_iff_iff]
  constructor
  · intro hskip
    unfold skipHopByHopHeader at hskip
    rw [List.any_eq_true] at hskip
    obtain ⟨h, hmem, heq⟩ := hskip
    rw [beq_iff_eq] at heq
    unfold isHopByHop
    rw [List.any_eq_true]
    exact ⟨h, hmem, (ToLower_eq_iff_equalIgnoringCase unicodeLower name h hn
      (hopByHopHeaders_isASCII h hmem)).1 heq.symm⟩
  · exact skipHopByHopHeader_of_isHopByHop unicodeLower name

/-- The test of `skipHopByHopHeader` is membership of the lower-cased name in
the list of the eight lower-case hop-by-hop names. -/
theorem skipHopByHopHeader_eq_hopByHopName (unicodeLower : Char → Char) (name : String) :
    skipHopByHopHeader unicodeLower name = hopByHopName unicodeLower name := by
  have hlow : ∀ h, isASCII h = true →
      ToLower unicodeLower h = String.mk (h.data.map Char.toLower) :=
    fun h hh => ToLower_of_isASCII unicodeLower h hh
  have h1 : ToLower unicodeLower "Connection" = "connection" := by
    rw [hlow _ (by decide)]; decide
  have h2 : ToLower unicodeLower "Keep-Alive" = "keep-alive" := by
    rw [hlow _ (by decide)]; decide
  have h3 : ToLower unicodeLower "Proxy-Authorization" = "proxy-authorization" := by
    rw [hlow _ (by decide)]; decide
  have h4 : ToLower unicodeLower "Proxy-Connection" = "proxy-connection" := by
    rw [hlow _ (by decide)]; decide
  have h5 : ToLower unicodeLower "TE" = "te" := by
    rw [hlow _ (by decide)]; decide
  have h6 : ToLower unicodeLower "Trailers" = "trailers" := by
    rw [hlow _ (by decide)]; decide
  have h7 : ToLower unicodeLower "Transfer-Encoding" = "transfer-encoding" := by
    rw [hlow _ (by decide)]; decide
  have h8 : ToLower unicodeLower "Upgrade" = "upgrade" := by
    rw [hlow _ (by decide)]; decide
  rw [Bool.eq_iff_iff]
  unfold skipHopByHopHeader hopByHopName HOP_BY_HOP_HEADERS
  simp only [List.any_cons, List.any_nil, h1, h2, h3, h4, h5, h6, h7, h8, Bool.or_false,
    Bool.or_eq_true, beq_iff_eq, List.contains_eq_any_beq]
  constructor <;> intro h <;>
    rcases h with h | h | h | h | h | h | h | h <;> simp [h]

/-- The loop of `copyHeaders` over a list of entries with distinct keys: the
source component is never written, and the destination holds, at each key,
the entry of the list when the key is in the list and is not skipped, and its
former entry otherwise. -/
theorem foldl_copyHeadersStep (unicodeLower : Char → Char)
    (l : List ((_ : String) × List String))
    (hl : l.NodupKeys) (st : Header × Header) (k : String) :
    (l.foldl (copyHeadersStep unicodeLower) st).1 = st.1 ∧
    (l.foldl (copyHeadersStep unicodeLower) st).2.lookup k =
      if k ∈ l.keys ∧ skipHopByHopHeader unicodeLower k = false then l.dlookup k
      else st.2.lookup k := by
  induction l generalizing st with
  | nil => simp
  | cons e l ih =>
    obtain ⟨a, b⟩ := e
    rw [List.nodupKeys_cons] at hl
    obtain ⟨hfst, hsnd⟩ := ih hl.2 (copyHeadersStep unicodeLower st ⟨a, b⟩)
    rw [List.foldl_cons, hfst, hsnd]
    refine ⟨by unfold copyHeadersStep; split <;> rfl, ?_⟩
    by_cases hk : k = a
    · subst hk
      have hnot : ¬ (k ∈ l.keys ∧ skipHopByHopHeader unicodeLower k = false) :=
        fun h => hl.1 h.1
      rw [if_neg hnot]
      unfold copyHeadersStep
      cases hskip : skipHopByHopHeader unicodeLower k
      · simp [AList.lookup_insert, List.dlookup_cons_eq]
      · simp
    · have hstep :
          (copyHeadersStep unicodeLower st ⟨a, b⟩).2.lookup k = st.2.lookup k := by
        unfold copyHeadersStep
        split
        · rfl
        · exact AList.lookup_insert_ne hk
      have hd : List.dlookup k (⟨a, b⟩ :: l) = List.dlookup k l :=
        List.dlookup_cons_ne l ⟨a, b⟩ hk
      simp only [hstep, hd, List.keys_cons, List.mem_cons, hk, false_or]

/-- C7: `copyHeaders` overwrites and does not merge.  After
`copyHeaders(src, dst)` the destination is the reference map: at every key it
holds the value list of `src` when the key is a key of `src` that is not
hop-by-hop, and the former entry of `dst` otherwise; and `src` is unchanged.
A name is hop-by-hop when its `strings.ToLower` is one of the eight
lower-case names, which on ASCII names is equality ignoring case with one of
`Connection`, ..., `Upgrade`.  This holds for every case table. -/
theorem copyHeaders_overwrites (unicodeLower : Char → Char) (src dst : Header) :
    (∀ k, (copyHeaders unicodeLower src dst).2.lookup k =
      copyHeadersReference unicodeLower src dst k) ∧
    (copyHeaders unicodeLower src dst).1 = src ∧
    (∀ name, isASCII name = true → hopByHopName unicodeLower name = isHopByHop name) := by
  refine ⟨fun k => ?_,
    (foldl_copyHeadersStep unicodeLower src.entries src.nodupKeys (src, dst) "").1,
    fun name hn => ?_⟩
  · unfold copyHeaders copyHeadersReference
    rw [(foldl_copyHeadersStep unicodeLower src.entries src.nodupKeys (src, dst) k).2,
      skipHopByHopHeader_eq_hopByHopName]
    rfl
  · rw [← skipHopByHopHeader_eq_hopByHopName,
      skipHopByHopHeader_eq_isHopByHop unicodeLower name hn]

/-- With a case table that lower-cases the Kelvin sign to `k`, as the Unicode
table does, a key `Keep-Alive` spelled with the Kelvin sign is skipped and the
destination stays as it was; the key is not ASCII, and is not equal to
`Keep-Alive` up to ASCII letter case. -/
theorem copyHeaders_kelvin_key :
    skipHopByHopHeader sampleUnicodeLower kelvinKeepAlive = true ∧
    isASCII kelvinKeepAlive = false ∧
    isHopByHop kelvinKeepAlive = false ∧
    (copyHeaders sampleUnicodeLower ((∅ : Header).insert kelvinKeepAlive ["x"]) ∅).2.keys
      = [] := by
  decide

/-- C3: `copyHeaders` never brings a hop-by-hop key into the destination.  If
no key of `dst` equals, ignoring case, one of the eight hop-by-hop names, then
no key of the destination after `copyHeaders(src, dst)` does, whatever the
keys of `src` and their letter case, and whatever the case table. -/
theorem copyHeaders_no_hop_by_hop (unicodeLower : Char → Char) (src dst : Header)
    (hdst : ∀ k ∈ dst.keys, isHopByHop k = false) :
    ∀ k ∈ (copyHeaders unicodeLower src dst).2.keys, isHopByHop k = false := by
  intro k hk
  have hlook :=
    (foldl_copyHeadersStep unicodeLower src.entries src.nodupKeys (src, dst) k).2
  rw [← AList.mem_keys, ← AList.lookup_isSome] at hk
  unfold copyHeaders at hk
  rw [hlook] at hk
  by_cases hcase : k ∈ src.entries.keys ∧ skipHopByHopHeader unicodeLower k = false
  · cases hhop : isHopByHop k
    · rfl
    · have hskip := skipHopByHopHeader_of_isHopByHop unicodeLower k hhop
      rw [hcase.2] at hskip
      cases hskip
  · rw [if_neg hcase, AList.lookup_isSome, AList.mem_keys] at hk
    exact hdst k hk

/-- Instance of C3: a source with `connection`, `KEEP-ALIVE`, `Te` and
`Accept` copied into a destination holding `Host`. -/
theorem copyHeaders_no_hop_by_hop_witness :
    (∀ k ∈ ((∅ : Header).insert "Host" ["h"]).keys, isHopByHop k = false) ∧
    ∀ k ∈ (copyHeaders sampleUnicodeLower
        (((((∅ : Header).insert "connection" ["close"]).insert "KEEP-ALIVE" ["1"]).insert
          "Te" ["trailers"]).insert "Accept" ["*/*"])
        ((∅ : Header).insert "Host" ["h"])).2.keys, isHopByHop k = false :=
  ⟨by decide, copyHeaders_no_hop_by_hop sampleUnicodeLower _ _ (by decide)⟩

/-! ## Dial failure, handshake and status codes -/

/-- C5: when the dial returns an error, for a CONNECT request or any other,
the handler makes exactly one dial, answers with `http.Error` and status 503,
logs, and does nothing else: no hijack, no handshake reply, no outbound
request, no response read, no copy, no close, no second dial. -/
theorem handler_dial_error (p : World) (w : Header) (r : Request) (err : String)
    (hdial : p.dial "tcp" (dialTarget r) = .error err) :
    handler p w r =
      [.Dial "tcp" (dialTarget r),
       .Error "Failed to connect to target via SOCKS5" 503,
       .Log ((if r.Method = "CONNECT" then "CONNECT error: " else "HTTP error: ") ++ err)] := by
  unfold dialTarget at hdial ⊢
  unfold handler
  by_cases hm : r.Method = "CONNECT"
  · simp only [hm, if_true] at hdial ⊢
    simp [handleConnect, hdial]
  · simp only [hm, if_false] at hdial ⊢
    simp [handleHTTP, hdial]

/-- C6: for a CONNECT request whose dial and hijack succeed, the handler
writes to the hijacked client connection exactly once, the bytes written are
`HTTP/1.1 200 Connection Established` followed by two CRLF, and that write
comes before the call that starts the relay. -/
theorem connect_handshake_reply (p : World) (w : Header) (r : Request)
    (hm : r.Method = "CONNECT") (hdial : p.dial "tcp" r.Host = .ok ())
    (hcap : p.hijacker = true) (hhij : p.hijack = .ok ()) :
    clientWrites (handler p w r) = ["HTTP/1.1 200 Connection Established\r\n\r\n"] ∧
    ∃ pre post,
      handler p w r =
        pre ++ [.ClientWrite "HTTP/1.1 200 Connection Established\r\n\r\n"] ++ post ∧
      Action.CopyConn ∉ pre ∧ clientWrites pre = [] ∧ Action.CopyConn ∈ post := by
  have htrace : handler p w r =
      [.Dial "tcp" r.Host, .Hijack,
       .ClientWrite "HTTP/1.1 200 Connection Established\r\n\r\n",
       .CopyConn, .CloseClient, .CloseUpstream] := by
    simp [handler, hm, handleConnect, hdial, hcap, hhij]
  refine ⟨by rw [htrace]; rfl, [.Dial "tcp" r.Host, .Hijack],
    [.CopyConn, .CloseClient, .CloseUpstream], by rw [htrace]; rfl, by simp, rfl, by simp⟩

/-- C9, amended: when the dial succeeds, the handler sends exactly one status:
500 on the CONNECT path when the writer cannot be hijacked or `Hijack` fails;
500 on the plain path when building the request, writing it or reading the
response fails; and on the plain path with no failure and an upstream status
code that `WriteHeader` takes as the final status (101, or 200 to 999), the
upstream status code, sent by the one `WriteHeader` call that directly
precedes the body copy. -/
theorem handler_status (p : World) (w : Header) (r : Request)
    (hdial : p.dial "tcp" (dialTarget r) = .ok ()) :
    (r.Method = "CONNECT" → (p.hijacker = false ∨ ∃ e, p.hijack = .error e) →
      statuses (handler p w r) = [500]) ∧
    (r.Method ≠ "CONNECT" →
      ((∃ e, p.newRequest r.Method r.URLString = .error e) ∨
        (∃ e, p.reqWrite = .error e) ∨ (∃ e, p.readResponse = .error e)) →
      statuses (handler p w r) = [500]) ∧
    (r.Method ≠ "CONNECT" → p.newRequest r.Method r.URLString = .ok () →
      p.reqWrite = .ok () → ∀ resp, p.readResponse = .ok resp →
      (resp.StatusCode = 101 ∨ (200 ≤ resp.StatusCode ∧ resp.StatusCode ≤ 999)) →
      statuses (handler p w r) = [resp.StatusCode] ∧
      ∃ pre hdr post,
        handler p w r =
          pre ++ [.WriteHeader resp.StatusCode hdr, .CopyBody resp.Body] ++ post ∧
        (∀ body, Action.CopyBody body ∉ pre) ∧ statuses pre = [] ∧
        (∀ b, statusesFrom b post = [])) := by
  unfold dialTarget at hdial
  have h500 : checkWriteHeaderCode 500 = true := by decide
  have hi500 : informationalCode 500 = false := by decide
  refine ⟨?_, ?_, ?_⟩
  · intro hm hfail
    simp only [hm, if_true] at hdial
    rcases hfail with hcap | ⟨e, he⟩
    · simp [handler, hm, handleConnect, hdial, hcap, statuses, statusesFrom, h500, hi500]
    · cases hcap : p.hijacker <;>
        simp [handler, hm, handleConnect, hdial, hcap, he, statuses, statusesFrom, h500,
          hi500]
  · intro hm hfail
    simp only [hm, if_false] at hdial
    rcases hnew : p.newRequest r.Method r.URLString with e | u
    · simp [handler, hm, handleHTTP, hdial, NewRequest, hnew, statuses, statusesFrom, h500,
        hi500]
    · rcases hwr : p.reqWrite with e | u
      · simp [handler, hm, handleHTTP, hdial, NewRequest, hnew, hwr, statuses, statusesFrom,
          h500, hi500]
      · rcases hrd : p.readResponse with e | resp
        · simp [handler, hm, handleHTTP, hdial, NewRequest, hnew, hwr, hrd, statuses,
            statusesFrom, h500, hi500]
        · rcases hfail with ⟨e, he⟩ | ⟨e, he⟩ | ⟨e, he⟩
          · rw [hnew] at he; cases he
          · rw [hwr] at he; cases he
          · rw [hrd] at he; cases he
  · intro hm hnew hwr resp hrd hcode
    simp only [hm, if_false] at hdial
    have hvalid : checkWriteHeaderCode resp.StatusCode = true := by
      unfold checkWriteHeaderCode
      rw [decide_eq_true_eq]
      omega
    have hfinal : informationalCode resp.StatusCode = false := by
      unfold informationalCode
      rw [decide_eq_false_iff_not]
      omega
    refine ⟨by simp [handler, hm, handleHTTP, hdial, NewRequest, hnew, hwr, hrd, statuses,
      statusesFrom, hvalid, hfinal], ?_⟩
    refine ⟨[.Dial "tcp" (dialAddress r.URLHost),
        .RequestWrite { Method := if r.Method = "" then "GET" else r.Method
                        URL := r.URLString
                        Header := (copyHeaders p.unicodeLower ∅ r.Header).1
                        Body := r.Body },
        .ReadResponse],
      (copyHeaders p.unicodeLower w resp.Header).1, [.CloseBody, .CloseUpstream],
      ?_, ?_, rfl, fun b => by cases b <;> rfl⟩
    · simp [handler, hm, handleHTTP, hdial, NewRequest, hnew, hwr, hrd, hvalid]
    · intro body; simp

/-- C9 as first stated fails at an upstream status line `HTTP/1.1 099 Odd`:
the method is not CONNECT and the dial, the construction of the request, its
write and the read of the response all succeed, yet `WriteHeader(99)` panics,
so no status at all is sent (in particular not 99) and the body copy is never
reached. -/
theorem handler_status_invalid_code :
    sampleGet.Method ≠ "CONNECT" ∧
    oddWorld.dial "tcp" (dialTarget sampleGet) = .ok () ∧
    oddWorld.newRequest sampleGet.Method sampleGet.URLString = .ok () ∧
    oddWorld.reqWrite = .ok () ∧
    oddWorld.readResponse = .ok oddResponse ∧
    statuses (handler oddWorld ∅ sampleGet) = [] ∧
    statuses (handler oddWorld ∅ sampleGet) ≠ [oddResponse.StatusCode] ∧
    (∀ body, Action.CopyBody body ∉ handler oddWorld ∅ sampleGet) ∧
    Action.Panic "invalid WriteHeader code 99" ∈ handler oddWorld ∅ sampleGet := by
  have htrace : handler oddWorld ∅ sampleGet =
      [.Dial "tcp" "h:80",
       .RequestWrite { Method := "GET", URL := "http://h/", Header := ∅, Body := "" },
       .ReadResponse,
       .WriteHeader 99 ∅,
       .Panic "invalid WriteHeader code 99",
       .CloseBody,
       .CloseUpstream] := rfl
  refine ⟨by decide, rfl, rfl, rfl, rfl, ?_, ?_, ?_, ?_⟩
  · rw [htrace]; rfl
  · rw [htrace]; decide
  · intro body; rw [htrace]; simp
  · rw [htrace]; simp

/-- At an upstream status line `HTTP/1.1 100 Continue` the writer sends 100
as an informational response and 200 as the final status. -/
theorem handler_status_informational_code :
    statuses (handler continueWorld ∅ sampleGet) = [100, 200] := by
  rfl

/-- Instance of C5: a refused dial for the sample GET. -/
theorem handler_dial_error_witness :
    deadWorld.dial "tcp" (dialTarget sampleGet) = .error "refused" ∧
    handler deadWorld ∅ sampleGet =
      [.Dial "tcp" (dialTarget sampleGet),
       .Error "Failed to connect to target via SOCKS5" 503,
       .Log ((if sampleGet.Method = "CONNECT" then "CONNECT error: " else "HTTP error: ") ++
         "refused")] :=
  ⟨rfl, handler_dial_error deadWorld ∅ sampleGet "refused" rfl⟩

/-- Instance of C6: the sample CONNECT request in a world where everything
succeeds. -/
theorem connect_handshake_reply_witness :
    clientWrites (handler happyWorld ∅ sampleConnect) =
      ["HTTP/1.1 200 Connection Established\r\n\r\n"] :=
  (connect_handshake_reply happyWorld ∅ sampleConnect rfl rfl rfl rfl).1

/-- Instance of C9: the sample GET answered with status 200. -/
theorem handler_status_witness :
    statuses (handler happyWorld ∅ sampleGet) = [200] :=
  ((handler_status happyWorld ∅ sampleGet rfl).2.2 (by decide) rfl rfl
    sampleResponse rfl (Or.inr (by decide))).1

/-! ## Dialer construction -/

/-- C10: `CreateDialer` passes credentials exactly when the user name and the
password are both non-empty, the credentials are then that user name and that
password, and when either is empty the `auth` argument is nil. -/
theorem createDialer_auth (p : Proxy) :
    ((CreateDialer p).auth.isSome = true ↔
      (p.SocksUsername ≠ "" ∧ p.SocksPassword ≠ "")) ∧
    ((p.SocksUsername ≠ "" ∧ p.SocksPassword ≠ "") →
      (CreateDialer p).auth =
        some { User := p.SocksUsername, Password := p.SocksPassword }) ∧
    ((p.SocksUsername = "" ∨ p.SocksPassword = "") → (CreateDialer p).auth = none) := by
  unfold CreateDialer
  by_cases hu : p.SocksUsername = "" <;> by_cases hp : p.SocksPassword = "" <;>
    simp [hu, hp]

/-! ## Dialled address -/

/-- A string contains the substring `":"` exactly when the colon is one of
its characters. -/
theorem contains_colon (s : String) : Contains s ":" = true ↔ ':' ∈ s.data := by
  unfold Contains
  have hcolon : (":" : String).data = [':'] := rfl
  rw [hcolon]
  have key : ∀ l : List Char,
      (l.tails.any (fun t => [':'].isPrefixOf t)) = true ↔ ':' ∈ l := by
    intro l
    induction l with
    | nil => simp [List.isPrefixOf]
    | cons a l ih =>
      rw [List.tails, List.any_cons, Bool.or_eq_true, ih, List.mem_cons]
      simp [List.isPrefixOf]
  exact key s.data

/-- With an explicit port the handler dials `URL.Host` unchanged. -/
theorem dialAddress_explicit_port (h : HostForm) (port : String) :
    dialAddress (Authority.urlHost { host := h, port := some port }) =
      Authority.urlHost { host := h, port := some port } := by
  have hcolon : (":" : String).data = [':'] := rfl
  have hc : Contains (Authority.urlHost { host := h, port := some port }) ":" = true := by
    rw [contains_colon]
    simp only [Authority.urlHost, String.data_append, hcolon]
    simp
  simp [dialAddress, hc]

/-- Without a port, a host text free of colons (a name or an IPv4 address) is
dialled with `:80` appended. -/
theorem dialAddress_default_port (h : HostForm) (hcolon : ':' ∉ h.text.data) :
    dialAddress (Authority.urlHost { host := h, port := none }) =
      Authority.urlHost { host := h, port := none } ++ ":80" := by
  have hc : Contains h.text ":" = false := by
    rw [← Bool.not_eq_true, contains_colon]; exact hcolon
  have h80 : (":" : String) ++ "80" = ":80" := rfl
  simp [dialAddress, Authority.urlHost, hc, JoinHostPort, hcolon, String.append_assoc, h80]

/-- Without a port, a bracketed IPv6 literal is dialled as it stands: no port
is appended. -/
theorem dialAddress_ipv6_no_port (s : String) (hcolon : ':' ∈ s.data) :
    dialAddress (Authority.urlHost { host := .ipv6 s, port := none }) =
      "[" ++ s ++ "]" := by
  have hc : Contains ("[" ++ s ++ "]") ":" = true := by
    rw [contains_colon]
    simp only [String.data_append, List.mem_append]
    exact Or.inl (Or.inr hcolon)
  simp [dialAddress, Authority.urlHost, HostForm.text, hc]

/-- C4 at `http://[::1]/`: the URL carries no port, and the handler dials
`[::1]`, not `[::1]:80`. -/
theorem handler_dials_ipv6_without_port :
    (Authority.mk (.ipv6 "::1") none).port = none ∧
    sampleGetIPv6.URLHost = "[::1]" ∧
    (handler happyWorld ∅ sampleGetIPv6).head? = some (.Dial "tcp" "[::1]") ∧
    (Action.Dial "tcp" ("[::1]" ++ ":80")) ∉ handler happyWorld ∅ sampleGetIPv6 := by
  decide

/-! ## Header forwarding in `handleHTTP` -/

/-- Copying from an empty map changes nothing. -/
theorem copyHeaders_empty_src (unicodeLower : Char → Char) (dst : Header) :
    copyHeaders unicodeLower ∅ dst = (∅, dst) := rfl

/-- The outbound request `handleHTTP` writes always has an empty header map:
the call `copyHeaders(req.Header, r.Header)` copies from the fresh request
into the inbound one. -/
theorem handleHTTP_outbound_header_empty (p : World) (w : Header) (r : Request)
    (req : OutRequest) (hreq : Action.RequestWrite req ∈ handleHTTP p w r) :
    req.Header = ∅ := by
  unfold handleHTTP at hreq
  rcases hd : p.dial "tcp" (dialAddress r.URLHost) with e | u
  · simp [hd] at hreq
  · rcases hnew : p.newRequest r.Method r.URLString with e | u
    · simp [hd, NewRequest, hnew] at hreq
    · rcases hwr : p.reqWrite with e | u
      · simp [hd, NewRequest, hnew, hwr, copyHeaders_empty_src] at hreq
        rw [hreq]
      · rcases hrd : p.readResponse with e | resp
        · simp [hd, NewRequest, hnew, hwr, hrd, copyHeaders_empty_src] at hreq
          rw [hreq]
        · cases hc : checkWriteHeaderCode resp.StatusCode <;>
            simp [hd, NewRequest, hnew, hwr, hrd, hc, copyHeaders_empty_src] at hreq <;>
            rw [hreq]

/-- C1 at the sample GET with headers `Host`, `Accept` and `Connection`: the
inbound request carries `Accept: */*`, `Accept` is not a hop-by-hop name, and
the outbound request written to the upstream has no `Accept` (and no `Host`)
entry in its header map. -/
theorem handleHTTP_outbound_lacks_accept :
    sampleGet.Header.lookup "Accept" = some ["*/*"] ∧
    isHopByHop "Accept" = false ∧
    (∀ unicodeLower, skipHopByHopHeader unicodeLower "Accept" = false) ∧
    handler happyWorld ∅ sampleGet =
      [.Dial "tcp" "h:80",
       .RequestWrite { Method := "GET", URL := "http://h/", Header := ∅, Body := "" },
       .ReadResponse,
       .WriteHeader 200 ∅,
       .CopyBody "ok",
       .CloseBody,
       .CloseUpstream] ∧
    ∀ req, Action.RequestWrite req ∈ handler happyWorld ∅ sampleGet →
      req.Header.lookup "Accept" = none ∧ req.Header.lookup "Host" = none := by
  refine ⟨by decide, by decide, fun unicodeLower => ?_, rfl, ?_⟩
  · rw [skipHopByHopHeader_eq_isHopByHop unicodeLower "Accept" (by decide)]
    decide
  · intro req hreq
    have h : req.Header = ∅ :=
      handleHTTP_outbound_header_empty happyWorld ∅ sampleGet req hreq
    rw [h]
    exact ⟨rfl, rfl⟩

/-- The header map passed along with `WriteHeader` is the map of the writer
as it was on entry: the call `copyHeaders(w.Header(), resp.Header)` copies
from the writer into the upstream response. -/
theorem handleHTTP_writer_header_unchanged (p : World) (w : Header) (r : Request)
    (code : Nat) (hdr : Header)
    (hw : Action.WriteHeader code hdr ∈ handleHTTP p w r) :
    hdr = w := by
  unfold handleHTTP at hw
  rcases hd : p.dial "tcp" (dialAddress r.URLHost) with e | u
  · simp [hd] at hw
  · rcases hnew : p.newRequest r.Method r.URLString with e | u
    · simp [hd, NewRequest, hnew] at hw
    · rcases hwr : p.reqWrite with e | u
      · simp [hd, NewRequest, hnew, hwr] at hw
      · rcases hrd : p.readResponse with e | resp
        · simp [hd, NewRequest, hnew, hwr, hrd] at hw
        · have hsrc : (copyHeaders p.unicodeLower w resp.Header).1 = w :=
            (foldl_copyHeadersStep p.unicodeLower w.entries w.nodupKeys
              (w, resp.Header) "").1
          cases hc : checkWriteHeaderCode resp.StatusCode <;>
            simp [hd, NewRequest, hnew, hwr, hrd, hc] at hw <;>
            rw [hw.2, hsrc]

/-- C2 at the sample GET answered by the sample response: the upstream
response carries `Content-Type: text/plain`, `Content-Type` is not a
hop-by-hop name, and the header map of the writer when `WriteHeader(200)` is
called has no `Content-Type` entry. -/
theorem handleHTTP_response_lacks_content_type :
    sampleResponse.Header.lookup "Content-Type" = some ["text/plain"] ∧
    isHopByHop "Content-Type" = false ∧
    (∀ unicodeLower, skipHopByHopHeader unicodeLower "Content-Type" = false) ∧
    Action.WriteHeader 200 ∅ ∈ handler happyWorld ∅ sampleGet ∧
    ∀ code hdr, Action.WriteHeader code hdr ∈ handler happyWorld ∅ sampleGet →
      hdr.lookup "Content-Type" = none := by
  have htrace : handler happyWorld ∅ sampleGet =
      [.Dial "tcp" "h:80",
       .RequestWrite { Method := "GET", URL := "http://h/", Header := ∅, Body := "" },
       .ReadResponse,
       .WriteHeader 200 ∅,
       .CopyBody "ok",
       .CloseBody,
       .CloseUpstream] := rfl
  refine ⟨by decide, by decide, fun unicodeLower => ?_, by rw [htrace]; simp, ?_⟩
  · rw [skipHopByHopHeader_eq_isHopByHop unicodeLower "Content-Type" (by decide)]
    decide
  · intro code hdr hw
    rw [htrace] at hw
    simp at hw
    rw [hw.2]
    rfl

/-! ## Tunnel termination -/

/-- When the upstream-to-client copy returns, both connections are closed. -/
theorem copyFinished_upstreamToClient (t : Tunnel) :
    (copyFinished t .upstreamToClient).clientClosed = true ∧
    (copyFinished t .upstreamToClient).upstreamClosed = true :=
  ⟨rfl, rfl⟩

/-- When the client-to-upstream copy returns, no connection is closed that was
not closed before. -/
theorem copyFinished_clientToUpstream (t : Tunnel) :
    (copyFinished t .clientToUpstream).clientClosed = t.clientClosed ∧
    (copyFinished t .clientToUpstream).upstreamClosed = t.upstreamClosed :=
  ⟨rfl, rfl⟩

/-- C8 in an established tunnel whose client-to-upstream copy returns first,
the upstream sending nothing more: the copy is done and neither the upstream
connection nor the client connection is closed. -/
theorem tunnel_open_after_client_finishes :
    (runTunnel [.clientToUpstream]).clientToUpstreamDone = true ∧
    (runTunnel [.clientToUpstream]).upstreamClosed = false ∧
    (runTunnel [.clientToUpstream]).clientClosed = false := by
  decide

end HttpProxyToSocks
